import Mathlib

/-!
Verification of the streaming message framer of `p4analyzer`
(`packages/p4-analyzer/src/server/index.ts`).

The adapter class keeps a growable accumulation `Buffer`
(`requestBuffer`), a write offset (`requestBufferOffset`) and a FIFO
queue of extracted message bodies (`requestMessageBufferQueue`).  We
embed `Buffer` values as `List Nat` of byte values, the full allocated
capacity included (Node `Buffer.alloc` zero-fills, and `indexOf` /
`copy` operate on the whole allocation, not just the written prefix),
so that the embedding reproduces the code byte for byte.
-/

namespace P4Analyzer

/-- Byte values of a string literal (all our literals are ASCII, where the
UTF-8 bytes are the code points). -/
def strBytes (s : String) : List Nat :=
  s.data.map Char.toNat

/-- The constant `BODY_SPLIT_CHARS = "\r\n\r\n"` — the header/body separator. -/
def BODY_SPLIT_CHARS : List Nat :=
  strBytes "\r\n\r\n"

/-- The constant `BUFFER_CHUNK_SIZEBYTES = 2_048` — the buffer growth increment. -/
def BUFFER_CHUNK_SIZEBYTES : Nat := 2048

/-- The literal `Content-Length:` matched by `CONTENTLENGTH_HEADER_EXP`. -/
def CONTENT_LENGTH_LABEL : List Nat :=
  strBytes "Content-Length:"

/-- Bytes matched by the regex class `\s` (ASCII whitespace). -/
def isWhitespaceByte (b : Nat) : Bool :=
  b == 32 || b == 9 || b == 10 || b == 11 || b == 12 || b == 13

/-- Bytes matched by the regex class `\d`. -/
def isDigitByte (b : Nat) : Bool :=
  48 ≤ b && b ≤ 57

/-- Does `/Content-Length:\s(?<length>\d*)\s?/` match at the head of `s`?
Since `\d*` and `\s?` both accept the empty string, the pattern matches
exactly where the literal label is followed by one whitespace byte. -/
def matchesHeaderAt (s : List Nat) : Bool :=
  CONTENT_LENGTH_LABEL.isPrefixOf s &&
    (match s.drop CONTENT_LENGTH_LABEL.length with
     | w :: _ => isWhitespaceByte w
     | [] => false)

/-- The capture `CONTENTLENGTH_HEADER_EXP.exec(headers)?.groups["length"]`: the first
match position wins and the greedy `\d*` captures the maximal digit run
after the single `\s`.  `none` embeds a failed match (JavaScript `null`,
which becomes `undefined` and then `NaN` under `Number`). -/
def execContentLength : List Nat → Option (List Nat)
  | [] => none
  | b :: rest =>
    if matchesHeaderAt (b :: rest) then
      some (((b :: rest).drop (CONTENT_LENGTH_LABEL.length + 1)).takeWhile isDigitByte)
    else
      execContentLength rest

/-- JavaScript `Number` on a (possibly empty) string of decimal digits:
`Number("") = 0`, otherwise the decimal value. -/
def digitsToNat (ds : List Nat) : Nat :=
  ds.foldl (fun acc d => acc * 10 + (d - 48)) 0

/-- The search `Buffer.prototype.indexOf(pattern)`: index of the first occurrence of
`pat` in `buf`, searching the whole allocation. -/
def bufIndexOf (buf pat : List Nat) : Option Nat :=
  if pat.isPrefixOf buf then some 0
  else
    match buf with
    | [] => none
    | _ :: rest => (bufIndexOf rest pat).map (· + 1)

/-- The method `source.copy(target, targetStart, sourceStart, sourceEnd)`: copies
`source[sourceStart, sourceEnd)` into `target` at `targetStart`, truncated
to the target capacity; returns the new target contents and the number of
bytes copied (the JavaScript return value). -/
def bufCopy (target : List Nat) (targetStart : Nat) (source : List Nat)
    (sourceStart sourceEnd : Nat) : List Nat × Nat :=
  let src := (source.take sourceEnd).drop sourceStart
  let count := min src.length (target.length - targetStart)
  (target.take targetStart ++ src.take count ++ target.drop (targetStart + count), count)

/-- The mutable fields of the adapter class that the framer touches. -/
structure ServerState where
  requestBuffer : List Nat
  requestBufferOffset : Nat
  requestMessageBufferQueue : List (List Nat)
deriving DecidableEq

/-- The state set up by `start()`: a zero-filled buffer of
`BUFFER_CHUNK_SIZEBYTES`, offset `0`, empty queue. -/
def initialState : ServerState :=
  { requestBuffer := List.replicate BUFFER_CHUNK_SIZEBYTES 0
    requestBufferOffset := 0
    requestMessageBufferQueue := [] }

/-- The `Error` thrown by `onReceiveRequestBuffer` when the header block
lacks a parseable `Content-Length` field (the JavaScript message reads
"Received malformed message. ... header is missing."). -/
inductive FramerError where
  | malformedMessage
deriving DecidableEq

/-- The buffer after the reallocation check at the top of
`onReceiveRequestBuffer`: when `requestBufferOffset + chunk.byteLength`
exceeds the capacity, the buffer is extended (`Buffer.concat` with a
zero-filled allocation) by
`BUFFER_CHUNK_SIZEBYTES * (Math.floor(chunk.byteLength / BUFFER_CHUNK_SIZEBYTES) + 1)`. -/
def grownBuffer (st : ServerState) (chunk : List Nat) : List Nat :=
  if st.requestBuffer.length < st.requestBufferOffset + chunk.length then
    st.requestBuffer ++
      List.replicate (BUFFER_CHUNK_SIZEBYTES * (chunk.length / BUFFER_CHUNK_SIZEBYTES + 1)) 0
  else
    st.requestBuffer

/-- The growth check followed by
`chunk.copy(this.requestBuffer, this.requestBufferOffset, ...)` and the
advance of `requestBufferOffset` by the copied count. -/
def writeChunk (st : ServerState) (chunk : List Nat) : ServerState :=
  let buf0 := grownBuffer st chunk
  let r := bufCopy buf0 st.requestBufferOffset chunk 0 chunk.length
  { st with requestBuffer := r.1, requestBufferOffset := st.requestBufferOffset + r.2 }

/-- The handler `onReceiveRequestBuffer(chunk)` for stdin data events: grow/copy the
chunk, search the whole buffer for `BODY_SPLIT_CHARS`, parse the
`Content-Length` header, and when a complete message is present copy the
body out into a fresh buffer, compact via a self-copy from
`minRequiredOffset`, reset the offset to `0` and push the body on the
queue.  The second component is the thrown error, if any (mutations made
before a throw persist, as in JavaScript). -/
def onReceiveRequestBuffer (st : ServerState) (chunk : List Nat) :
    ServerState × Option FramerError :=
  let st1 := writeChunk st chunk
  match bufIndexOf st1.requestBuffer BODY_SPLIT_CHARS with
  | none => (st1, none)
  | some splitOffset =>
    let headers := st1.requestBuffer.take splitOffset
    match execContentLength headers with
    | none => (st1, some FramerError.malformedMessage)
    | some lengthDigits =>
      let contentLength := digitsToNat lengthDigits
      let minRequiredOffset := splitOffset + BODY_SPLIT_CHARS.length + contentLength
      if st1.requestBufferOffset < minRequiredOffset then (st1, none)
      else
        let requestMessageBuffer :=
          (bufCopy (List.replicate contentLength 0) 0 st1.requestBuffer
            (splitOffset + BODY_SPLIT_CHARS.length) minRequiredOffset).1
        let compacted :=
          (bufCopy st1.requestBuffer 0 st1.requestBuffer minRequiredOffset
            st1.requestBuffer.length).1
        ({ requestBuffer := compacted
           requestBufferOffset := 0
           requestMessageBufferQueue := st1.requestMessageBufferQueue ++ [requestMessageBuffer] },
         none)

/-- The drain `sendRequestMessageBuffer()`: `shift()` the queue head and hand it to
`server.sendRequest`; returns the submitted body (`none` embeds
`undefined` on an empty queue). -/
def sendRequestMessageBuffer (st : ServerState) : ServerState × Option (List Nat) :=
  match st.requestMessageBufferQueue with
  | [] => (st, none)
  | b :: rest => ({ st with requestMessageBufferQueue := rest }, some b)

/-- The decimal digit bytes of `n` as produced by JavaScript string
interpolation of a number (`${message.byteLength}`). -/
def natToDecimalBytes (n : Nat) : List Nat :=
  if n = 0 then [48] else ((Nat.digits 10 n).reverse.map (· + 48))

/-- Is `b` a UTF-8 continuation byte (`0x80`–`0xBF`)? -/
def isContinuationByte (b : Nat) : Bool :=
  128 ≤ b && b ≤ 191

/-- The WHATWG UTF-8 decoder with replacement, as applied by
`Buffer.prototype.toString()` (which the template-literal interpolation
`${message}` invokes): well-formed sequences decode to their code point;
each maximal ill-formed subpart (including a truncated sequence at end of
input) becomes one U+FFFD (`65533`). Second bytes are range-checked per
lead byte (`E0`/`ED`/`F0`/`F4` specials), and a failing byte is not
consumed but re-examined as a new lead. -/
def utf8Decode : List Nat → List Nat
  | [] => []
  | b :: rest =>
    if b ≤ 127 then b :: utf8Decode rest
    else if 194 ≤ b && b ≤ 223 then
      match rest with
      | [] => [65533]
      | b1 :: rest1 =>
        if isContinuationByte b1 then
          ((b - 192) * 64 + (b1 - 128)) :: utf8Decode rest1
        else 65533 :: utf8Decode (b1 :: rest1)
    else if 224 ≤ b && b ≤ 239 then
      match rest with
      | [] => [65533]
      | b1 :: rest1 =>
        if (if b = 224 then 160 else 128) ≤ b1 && b1 ≤ (if b = 237 then 159 else 191) then
          match rest1 with
          | [] => [65533]
          | b2 :: rest2 =>
            if isContinuationByte b2 then
              ((b - 224) * 4096 + (b1 - 128) * 64 + (b2 - 128)) :: utf8Decode rest2
            else 65533 :: utf8Decode (b2 :: rest2)
        else 65533 :: utf8Decode (b1 :: rest1)
    else if 240 ≤ b && b ≤ 244 then
      match rest with
      | [] => [65533]
      | b1 :: rest1 =>
        if (if b = 240 then 144 else 128) ≤ b1 && b1 ≤ (if b = 244 then 143 else 191) then
          match rest1 with
          | [] => [65533]
          | b2 :: rest2 =>
            if isContinuationByte b2 then
              match rest2 with
              | [] => [65533]
              | b3 :: rest3 =>
                if isContinuationByte b3 then
                  ((b - 240) * 262144 + (b1 - 128) * 4096 + (b2 - 128) * 64 + (b3 - 128))
                    :: utf8Decode rest3
                else 65533 :: utf8Decode (b3 :: rest3)
            else 65533 :: utf8Decode (b2 :: rest2)
        else 65533 :: utf8Decode (b1 :: rest1)
    else 65533 :: utf8Decode rest

/-- Validity of a byte list as UTF-8: exactly the inputs on which the
WHATWG decoder above never emits a replacement. -/
def isUtf8 : List Nat → Bool
  | [] => true
  | b :: rest =>
    if b ≤ 127 then isUtf8 rest
    else if 194 ≤ b && b ≤ 223 then
      match rest with
      | [] => false
      | b1 :: rest1 => isContinuationByte b1 && isUtf8 rest1
    else if 224 ≤ b && b ≤ 239 then
      match rest with
      | [] => false
      | b1 :: rest1 =>
        ((if b = 224 then 160 else 128) ≤ b1 && b1 ≤ (if b = 237 then 159 else 191)) &&
          match rest1 with
          | [] => false
          | b2 :: rest2 => isContinuationByte b2 && isUtf8 rest2
    else if 240 ≤ b && b ≤ 244 then
      match rest with
      | [] => false
      | b1 :: rest1 =>
        ((if b = 240 then 144 else 128) ≤ b1 && b1 ≤ (if b = 244 then 143 else 191)) &&
          match rest1 with
          | [] => false
          | b2 :: rest2 =>
            isContinuationByte b2 &&
              match rest2 with
              | [] => false
              | b3 :: rest3 => isContinuationByte b3 && isUtf8 rest3
    else false

/-- UTF-8 encoding of one code point, as `process.stdout.write` applies to
each character of the JavaScript string (U+FFFD becomes `EF BF BD`). -/
def utf8EncodeChar (c : Nat) : List Nat :=
  if c ≤ 127 then [c]
  else if c ≤ 2047 then [192 + c / 64, 128 + c % 64]
  else if c ≤ 65535 then [224 + c / 4096, 128 + (c / 64) % 64, 128 + c % 64]
  else [240 + c / 262144, 128 + (c / 4096) % 64, 128 + (c / 64) % 64, 128 + c % 64]

/-- UTF-8 encoding of a code point sequence. -/
def utf8Encode : List Nat → List Nat
  | [] => []
  | c :: cs => utf8EncodeChar c ++ utf8Encode cs

/-- The encoder `onResponseBuffer(message)`: the bytes written to stdout,
`` `Content-Length: ${message.byteLength}${BODY_SPLIT_CHARS}${message}` ``.
The header text is ASCII, so its UTF-8 bytes are its code points; the
interpolation `${message}` is `Buffer.prototype.toString()` — a lossy
WHATWG UTF-8 decode — and `process.stdout.write` re-encodes the resulting
string as UTF-8, so the emitted body bytes are
`utf8Encode (utf8Decode message)`, not `message` itself. The declared
length is `message.byteLength`, computed on the original buffer. -/
def onResponseBuffer (message : List Nat) : List Nat :=
  strBytes "Content-Length: " ++ natToDecimalBytes message.length ++
    BODY_SPLIT_CHARS ++ utf8Encode (utf8Decode message)

/-- One externally triggered step of the adapter: a stdin data event
carrying a chunk, or the `setImmediate` callback draining one queued
message into `server.sendRequest`. -/
inductive AdapterOp where
  | recv (chunk : List Nat)
  | send

/-- Run a sequence of adapter steps, collecting the submitted bodies (in
submission order) and the bodies enqueued by the `recv` steps (in enqueue
order). -/
def runAdapter : ServerState → List AdapterOp → ServerState × List (List Nat) × List (List Nat)
  | st, [] => (st, [], [])
  | st, AdapterOp.recv c :: ops =>
    let st1 := (onReceiveRequestBuffer st c).1
    let newMsgs := st1.requestMessageBufferQueue.drop st.requestMessageBufferQueue.length
    let r := runAdapter st1 ops
    (r.1, r.2.1, newMsgs ++ r.2.2)
  | st, AdapterOp.send :: ops =>
    let r0 := sendRequestMessageBuffer st
    let r := runAdapter r0.1 ops
    (r.1, r0.2.toList ++ r.2.1, r.2.2)

/-! ### Basic facts about the embedded buffer primitives -/

theorem BODY_SPLIT_CHARS_eq : BODY_SPLIT_CHARS = [13, 10, 13, 10] := rfl

theorem BODY_SPLIT_CHARS_length : BODY_SPLIT_CHARS.length = 4 := rfl

/-- The method `Buffer.copy` never changes the length of the target allocation. -/
theorem bufCopy_fst_length (target : List Nat) (targetStart : Nat) (source : List Nat)
    (sourceStart sourceEnd : Nat) :
    (bufCopy target targetStart source sourceStart sourceEnd).1.length = target.length := by
  simp only [bufCopy, List.length_append, List.length_take, List.length_drop]
  omega

/-- A full-source copy that fits inside the target splices the source in. -/
theorem bufCopy_write (target : List Nat) (start : Nat) (src : List Nat)
    (h : start + src.length ≤ target.length) :
    bufCopy target start src 0 src.length
      = (target.take start ++ src ++ target.drop (start + src.length), src.length) := by
  unfold bufCopy
  simp only [List.drop_zero, List.take_length]
  rw [min_eq_left (by omega), List.take_length]

/-- When no reallocation is needed, the buffer is untouched. -/
theorem grownBuffer_of_fits (st : ServerState) (chunk : List Nat)
    (h : st.requestBufferOffset + chunk.length ≤ st.requestBuffer.length) :
    grownBuffer st chunk = st.requestBuffer := by
  unfold grownBuffer
  rw [if_neg (by omega)]

/-- Growth never shrinks the allocation. -/
theorem length_le_grownBuffer (st : ServerState) (chunk : List Nat) :
    st.requestBuffer.length ≤ (grownBuffer st chunk).length := by
  unfold grownBuffer
  split <;> simp

/-- Growth preserves every previously stored byte at its offset. -/
theorem grownBuffer_take (st : ServerState) (chunk : List Nat) :
    (grownBuffer st chunk).take st.requestBuffer.length = st.requestBuffer := by
  unfold grownBuffer
  split
  · exact List.take_left _ _
  · exact List.take_length _

/-- Growth is in (positive) multiples of `BUFFER_CHUNK_SIZEBYTES`. -/
theorem grownBuffer_increment (st : ServerState) (chunk : List Nat) :
    ∃ k, (grownBuffer st chunk).length
      = st.requestBuffer.length + BUFFER_CHUNK_SIZEBYTES * k := by
  unfold grownBuffer
  split
  · exact ⟨chunk.length / BUFFER_CHUNK_SIZEBYTES + 1, by
      simp [List.length_append, List.length_replicate]⟩
  · exact ⟨0, by simp⟩

/-- When reallocation fires, the added capacity strictly exceeds the chunk. -/
theorem grownBuffer_exceeds (st : ServerState) (chunk : List Nat)
    (h : st.requestBuffer.length < st.requestBufferOffset + chunk.length) :
    st.requestBuffer.length + chunk.length < (grownBuffer st chunk).length := by
  unfold grownBuffer
  rw [if_pos h]
  simp only [List.length_append, List.length_replicate]
  have hdm := Nat.div_add_mod chunk.length BUFFER_CHUNK_SIZEBYTES
  have hml : chunk.length % BUFFER_CHUNK_SIZEBYTES < BUFFER_CHUNK_SIZEBYTES :=
    Nat.mod_lt _ (by norm_num [BUFFER_CHUNK_SIZEBYTES])
  have hexp : BUFFER_CHUNK_SIZEBYTES * (chunk.length / BUFFER_CHUNK_SIZEBYTES + 1)
      = BUFFER_CHUNK_SIZEBYTES * (chunk.length / BUFFER_CHUNK_SIZEBYTES)
        + BUFFER_CHUNK_SIZEBYTES := by ring
  omega

/-- The grown buffer always has room for the incoming chunk. -/
theorem grownBuffer_fits (st : ServerState) (chunk : List Nat)
    (hinv : st.requestBufferOffset ≤ st.requestBuffer.length) :
    st.requestBufferOffset + chunk.length ≤ (grownBuffer st chunk).length := by
  by_cases h : st.requestBuffer.length < st.requestBufferOffset + chunk.length
  · have := grownBuffer_exceeds st chunk h
    omega
  · have := length_le_grownBuffer st chunk
    omega

theorem writeChunk_queue (st : ServerState) (chunk : List Nat) :
    (writeChunk st chunk).requestMessageBufferQueue = st.requestMessageBufferQueue := rfl

theorem writeChunk_buffer_length (st : ServerState) (chunk : List Nat) :
    (writeChunk st chunk).requestBuffer.length = (grownBuffer st chunk).length :=
  bufCopy_fst_length _ _ _ _ _

/-- Writing a chunk under the offset invariant splices it at the offset. -/
theorem writeChunk_eq (st : ServerState) (chunk : List Nat)
    (hinv : st.requestBufferOffset ≤ st.requestBuffer.length) :
    writeChunk st chunk =
      { st with
        requestBuffer := (grownBuffer st chunk).take st.requestBufferOffset ++ chunk ++
          (grownBuffer st chunk).drop (st.requestBufferOffset + chunk.length)
        requestBufferOffset := st.requestBufferOffset + chunk.length } := by
  simp only [writeChunk]
  rw [bufCopy_write _ _ _ (grownBuffer_fits st chunk hinv)]

/-- Writing at offset `0` into a large enough buffer overwrites its prefix. -/
theorem writeChunk_at_zero (st : ServerState) (chunk : List Nat)
    (hoff : st.requestBufferOffset = 0)
    (hlen : chunk.length ≤ st.requestBuffer.length) :
    writeChunk st chunk =
      { st with
        requestBuffer := chunk ++ st.requestBuffer.drop chunk.length
        requestBufferOffset := chunk.length } := by
  rw [writeChunk_eq st chunk (by omega)]
  rw [grownBuffer_of_fits st chunk (by omega)]
  simp [hoff]

/-- From the start state, a written chunk is followed by zero padding. -/
theorem writeChunk_initial (chunk : List Nat) :
    ∃ z, writeChunk initialState chunk =
      { requestBuffer := chunk ++ List.replicate z 0
        requestBufferOffset := chunk.length
        requestMessageBufferQueue := [] } := by
  have hrep : ∃ G, grownBuffer initialState chunk = List.replicate G 0 := by
    unfold grownBuffer initialState
    split
    · exact ⟨BUFFER_CHUNK_SIZEBYTES +
        BUFFER_CHUNK_SIZEBYTES * (chunk.length / BUFFER_CHUNK_SIZEBYTES + 1),
        (List.replicate_add _ _ _).symm⟩
    · exact ⟨BUFFER_CHUNK_SIZEBYTES, rfl⟩
  obtain ⟨G, hG⟩ := hrep
  have hfit : chunk.length ≤ G := by
    have h := grownBuffer_fits initialState chunk (by simp [initialState])
    rw [hG] at h
    simpa [initialState] using h
  refine ⟨G - chunk.length, ?_⟩
  rw [writeChunk_eq _ _ (by simp [initialState]), hG]
  simp [initialState, List.drop_replicate]

/-- The first separator in a buffer whose prefix is free of `\r` sits right
after that prefix. -/
theorem bufIndexOf_split (h t : List Nat) (hclean : ∀ b ∈ h, b ≠ 13) :
    bufIndexOf (h ++ BODY_SPLIT_CHARS ++ t) BODY_SPLIT_CHARS = some h.length := by
  rw [BODY_SPLIT_CHARS_eq]
  induction h with
  | nil =>
    rw [List.nil_append, bufIndexOf.eq_def, if_pos]
    · rfl
    · simp [ List.isPrefixOf_iff_prefix]
  | cons b h ih =>
    have hb : (13 == b) = false := by
      have hb13 : b ≠ 13 := hclean b (by simp)
      simp [hb13.symm]
    rw [List.cons_append, bufIndexOf.eq_def, if_neg]
    · show (bufIndexOf (h ++ [13, 10, 13, 10] ++ t) [13, 10, 13, 10]).map (· + 1)
        = some (b :: h).length
      rw [ih (fun x hx => hclean x (List.mem_cons_of_mem b hx))]
      simp
    · simp [List.isPrefixOf, hb]

theorem matchesHeaderAt_canonical (ds : List Nat) :
    matchesHeaderAt (CONTENT_LENGTH_LABEL ++ 32 :: ds) = true := by
  unfold matchesHeaderAt
  rw [List.drop_left]
  simp [ List.isPrefixOf_iff_prefix, List.prefix_append, isWhitespaceByte]

theorem execContentLength_matched (s : List Nat) (hne : s ≠ [])
    (hm : matchesHeaderAt s = true) :
    execContentLength s = some ((s.drop 16).takeWhile isDigitByte) := by
  cases s with
  | nil => exact absurd rfl hne
  | cons b rest =>
    rw [execContentLength, if_pos hm]
    rfl

/-- The regex on a canonical header captures exactly its digit run. -/
theorem execContentLength_canonical (ds : List Nat)
    (hds : ∀ d ∈ ds, isDigitByte d = true) :
    execContentLength (CONTENT_LENGTH_LABEL ++ 32 :: ds) = some ds := by
  rw [execContentLength_matched _ (by simp [CONTENT_LENGTH_LABEL, strBytes])
    (matchesHeaderAt_canonical ds)]
  have hdrop : (CONTENT_LENGTH_LABEL ++ 32 :: ds).drop 16 = ds := by
    have h16 : (16 : Nat) = CONTENT_LENGTH_LABEL.length + 1 := rfl
    rw [h16, List.drop_append 1]
    rfl
  rw [hdrop, List.takeWhile_eq_self_iff.mpr hds]

theorem foldl_decimal (l : List Nat) (a : Nat) :
    l.reverse.foldl (fun acc d => acc * 10 + d) a
      = a * 10 ^ l.length + Nat.ofDigits 10 l := by
  induction l generalizing a with
  | nil => simp
  | cons d t ih =>
    simp only [List.reverse_cons, List.foldl_append, List.foldl_cons, List.foldl_nil,
      ih, Nat.ofDigits_cons, List.length_cons, pow_succ]
    ring

/-- Applying `Number` inverts the decimal rendering of a length. -/
theorem digitsToNat_natToDecimalBytes (n : Nat) :
    digitsToNat (natToDecimalBytes n) = n := by
  unfold natToDecimalBytes
  split
  · rename_i h
    simp [digitsToNat, h]
  · unfold digitsToNat
    rw [List.foldl_map]
    simp only [Nat.add_sub_cancel]
    rw [foldl_decimal]
    simp [Nat.ofDigits_digits]

theorem natToDecimalBytes_digits (n : Nat) :
    ∀ d ∈ natToDecimalBytes n, isDigitByte d = true := by
  unfold natToDecimalBytes
  split
  · intro d hd
    simp only [List.mem_singleton] at hd
    subst hd
    decide
  · intro d hd
    simp only [List.mem_map, List.mem_reverse] at hd
    obtain ⟨x, hx, rfl⟩ := hd
    have hx10 : x < 10 := Nat.digits_lt_base (by norm_num) hx
    simp only [isDigitByte, Bool.and_eq_true, decide_eq_true_eq]
    omega

theorem natToDecimalBytes_ne13 (n : Nat) :
    ∀ d ∈ natToDecimalBytes n, d ≠ 13 := by
  intro d hd
  have h := natToDecimalBytes_digits n d hd
  simp only [isDigitByte, Bool.and_eq_true, decide_eq_true_eq] at h
  omega

/-- The in-place compaction self-copy: the tail from `m` moves to the front
and the last `m` positions keep their stale values. -/
theorem bufCopy_compact (buf : List Nat) (m : Nat) (hm : m ≤ buf.length) :
    (bufCopy buf 0 buf m buf.length).1
      = buf.drop m ++ buf.drop (buf.length - m) := by
  unfold bufCopy
  simp only [List.take_length, List.take_zero, List.nil_append, Nat.sub_zero,
    List.length_drop, Nat.zero_add]
  rw [min_eq_left (by omega), List.take_of_length_le (by simp)]

/-- Copying a body span out into a fresh zero-filled buffer yields the span. -/
theorem bufCopy_extract (buf : List Nat) (s n : Nat) (hs : s + n ≤ buf.length) :
    (bufCopy (List.replicate n 0) 0 buf s (s + n)).1 = (buf.take (s + n)).drop s := by
  unfold bufCopy
  have hlen : ((buf.take (s + n)).drop s).length = n := by
    simp only [List.length_drop, List.length_take]
    omega
  simp only [List.length_replicate, List.take_zero, List.nil_append, Nat.sub_zero,
    Nat.zero_add, hlen, min_self]
  rw [List.take_of_length_le (by rw [hlen]), List.drop_replicate]
  simp

/-! ### What one `onReceiveRequestBuffer` call does in each control path -/

/-- The extraction path: when the written buffer splits as
`hdr ++ separator ++ rest`, the header parses to `n` and at least
`hdr.length + 4 + n` bytes have been written, the call enqueues
`rest.take n`, shifts the remainder down, and resets the offset to `0`
(leaving the stale last `hdr.length + 4 + n` positions in place). -/
theorem onChunk_extract_eq (st : ServerState) (chunk : List Nat)
    (hdr rest ds : List Nat) (n : Nat)
    (hbuf : (writeChunk st chunk).requestBuffer = hdr ++ BODY_SPLIT_CHARS ++ rest)
    (hclean : ∀ b ∈ hdr, b ≠ 13)
    (hexec : execContentLength hdr = some ds)
    (hn : digitsToNat ds = n)
    (hrest : n ≤ rest.length)
    (hoff : hdr.length + 4 + n ≤ (writeChunk st chunk).requestBufferOffset) :
    onReceiveRequestBuffer st chunk =
      ({ requestBuffer :=
           rest.drop n ++ (hdr ++ BODY_SPLIT_CHARS ++ rest).drop (rest.length - n)
         requestBufferOffset := 0
         requestMessageBufferQueue :=
           st.requestMessageBufferQueue ++ [rest.take n] }, none) := by
  have hlen4 : (hdr ++ BODY_SPLIT_CHARS).length = hdr.length + 4 := by
    simp [BODY_SPLIT_CHARS_length]
  have hcap : hdr.length + 4 + n ≤ (hdr ++ BODY_SPLIT_CHARS ++ rest).length := by
    simp only [List.length_append, BODY_SPLIT_CHARS_length]
    omega
  have htake : (hdr ++ BODY_SPLIT_CHARS ++ rest).take hdr.length = hdr := by
    rw [List.append_assoc, List.take_left]
  have hmsg : (bufCopy (List.replicate n 0) 0 (hdr ++ BODY_SPLIT_CHARS ++ rest)
      (hdr.length + 4) (hdr.length + 4 + n)).1 = rest.take n := by
    rw [bufCopy_extract _ _ _ hcap]
    have h1 : (hdr ++ BODY_SPLIT_CHARS ++ rest).take (hdr.length + 4 + n)
        = (hdr ++ BODY_SPLIT_CHARS) ++ rest.take n := by
      rw [show hdr.length + 4 + n = (hdr ++ BODY_SPLIT_CHARS).length + n from by
        rw [hlen4], List.take_append]
    rw [h1, show hdr.length + 4 = (hdr ++ BODY_SPLIT_CHARS).length from hlen4.symm,
      List.drop_left]
  have hcompact : (bufCopy (hdr ++ BODY_SPLIT_CHARS ++ rest) 0
      (hdr ++ BODY_SPLIT_CHARS ++ rest) (hdr.length + 4 + n)
      (hdr ++ BODY_SPLIT_CHARS ++ rest).length).1
      = rest.drop n ++ (hdr ++ BODY_SPLIT_CHARS ++ rest).drop (rest.length - n) := by
    rw [bufCopy_compact _ _ hcap]
    congr 1
    · rw [show hdr.length + 4 + n = (hdr ++ BODY_SPLIT_CHARS).length + n from by
        rw [hlen4], List.drop_append]
    · congr 1
      simp only [List.length_append, BODY_SPLIT_CHARS_length]
      omega
  simp only [onReceiveRequestBuffer, hbuf, bufIndexOf_split hdr rest hclean, htake,
    hexec, hn, BODY_SPLIT_CHARS_length]
  rw [if_neg (by omega)]
  simp only [hmsg, hcompact, writeChunk_queue]

/-- The throw path: a separator is present but the header block does not
match the `Content-Length` pattern, so the call raises the malformed
message error and leaves the state as written. -/
theorem onChunk_throw_eq (st : ServerState) (chunk : List Nat) (hdr rest : List Nat)
    (hbuf : (writeChunk st chunk).requestBuffer = hdr ++ BODY_SPLIT_CHARS ++ rest)
    (hclean : ∀ b ∈ hdr, b ≠ 13)
    (hexec : execContentLength hdr = none) :
    onReceiveRequestBuffer st chunk
      = (writeChunk st chunk, some FramerError.malformedMessage) := by
  have htake : (hdr ++ BODY_SPLIT_CHARS ++ rest).take hdr.length = hdr := by
    rw [List.append_assoc, List.take_left]
  simp only [onReceiveRequestBuffer, hbuf, bufIndexOf_split hdr rest hclean, htake,
    hexec]

/-- Each call appends at most its extracted message to the queue. -/
theorem onChunk_queue_extend (st : ServerState) (chunk : List Nat) :
    ∃ t, (onReceiveRequestBuffer st chunk).1.requestMessageBufferQueue
      = st.requestMessageBufferQueue ++ t := by
  cases hsep : bufIndexOf (writeChunk st chunk).requestBuffer BODY_SPLIT_CHARS with
  | none =>
    exact ⟨[], by simp [onReceiveRequestBuffer, hsep, writeChunk_queue]⟩
  | some p =>
    cases hex : execContentLength ((writeChunk st chunk).requestBuffer.take p) with
    | none =>
      exact ⟨[], by simp [onReceiveRequestBuffer, hsep, hex, writeChunk_queue]⟩
    | some ds =>
      by_cases hlt : (writeChunk st chunk).requestBufferOffset
          < p + BODY_SPLIT_CHARS.length + digitsToNat ds
      · exact ⟨[], by simp [onReceiveRequestBuffer, hsep, hex, hlt, writeChunk_queue]⟩
      · exact ⟨[(bufCopy (List.replicate (digitsToNat ds) 0) 0
            (writeChunk st chunk).requestBuffer (p + BODY_SPLIT_CHARS.length)
            (p + BODY_SPLIT_CHARS.length + digitsToNat ds)).1],
          by simp [onReceiveRequestBuffer, hsep, hex, hlt, writeChunk_queue]⟩

/-- Each call either stops at the written state or compacts: the resulting
offset is the written one or `0`, and the capacity is that of the written
buffer in both cases. -/
theorem onChunk_buffer_cases (st : ServerState) (chunk : List Nat) :
    (onReceiveRequestBuffer st chunk).1 = writeChunk st chunk ∨
    ((onReceiveRequestBuffer st chunk).1.requestBufferOffset = 0 ∧
      (onReceiveRequestBuffer st chunk).1.requestBuffer.length
        = (writeChunk st chunk).requestBuffer.length) := by
  cases hsep : bufIndexOf (writeChunk st chunk).requestBuffer BODY_SPLIT_CHARS with
  | none => left; simp [onReceiveRequestBuffer, hsep]
  | some p =>
    cases hex : execContentLength ((writeChunk st chunk).requestBuffer.take p) with
    | none => left; simp [onReceiveRequestBuffer, hsep, hex]
    | some ds =>
      by_cases hlt : (writeChunk st chunk).requestBufferOffset
          < p + BODY_SPLIT_CHARS.length + digitsToNat ds
      · left; simp [onReceiveRequestBuffer, hsep, hex, hlt]
      · right
        refine ⟨by simp [onReceiveRequestBuffer, hsep, hex, hlt], ?_⟩
        simp [onReceiveRequestBuffer, hsep, hex, hlt, bufCopy_fst_length]

/-- Writing preserves the offset-within-capacity invariant. -/
theorem writeChunk_offset_le (st : ServerState) (chunk : List Nat)
    (hinv : st.requestBufferOffset ≤ st.requestBuffer.length) :
    (writeChunk st chunk).requestBufferOffset
      ≤ (writeChunk st chunk).requestBuffer.length := by
  rw [writeChunk_eq st chunk hinv]
  simp only [List.length_append, List.length_take, List.length_drop]
  have := grownBuffer_fits st chunk hinv
  omega

/-! ### Claim theorems -/

/-- C4 (amended): when the written buffer contains the header/body
separator but the header block before it has no match for
`Content-Length:` followed by a whitespace byte, `onReceiveRequestBuffer`
throws the malformed-message error (leaving the state as written) — it
does not silently return as in the more-data-needed case. -/
theorem onChunk_missing_header_fatal (st : ServerState) (chunk : List Nat) (p : Nat)
    (hsep : bufIndexOf (writeChunk st chunk).requestBuffer BODY_SPLIT_CHARS = some p)
    (hexec : execContentLength ((writeChunk st chunk).requestBuffer.take p) = none) :
    onReceiveRequestBuffer st chunk
      = (writeChunk st chunk, some FramerError.malformedMessage) := by
  simp [onReceiveRequestBuffer, hsep, hexec]

/-- C7: a complete message declaring content length `0` is not dropped and
not an error: the call succeeds and enqueues exactly one empty body. -/
theorem onChunk_zero_length_body (st : ServerState) (chunk : List Nat)
    (p : Nat) (ds : List Nat)
    (hsep : bufIndexOf (writeChunk st chunk).requestBuffer BODY_SPLIT_CHARS = some p)
    (hexec : execContentLength ((writeChunk st chunk).requestBuffer.take p) = some ds)
    (hzero : digitsToNat ds = 0)
    (hoff : p + 4 ≤ (writeChunk st chunk).requestBufferOffset) :
    (onReceiveRequestBuffer st chunk).2 = none ∧
    (onReceiveRequestBuffer st chunk).1.requestMessageBufferQueue
      = st.requestMessageBufferQueue ++ [[]] := by
  have hmsg : (bufCopy (List.replicate (digitsToNat ds) 0) 0
      (writeChunk st chunk).requestBuffer (p + BODY_SPLIT_CHARS.length)
      (p + BODY_SPLIT_CHARS.length + digitsToNat ds)).1 = [] := by
    simp [bufCopy, hzero]
  have hif : ¬ ((writeChunk st chunk).requestBufferOffset
      < p + BODY_SPLIT_CHARS.length + digitsToNat ds) := by
    rw [hzero, BODY_SPLIT_CHARS_length]
    omega
  refine ⟨?_, ?_⟩ <;>
    simp [onReceiveRequestBuffer, hsep, hexec, hif, hmsg, writeChunk_queue]

/-- C10: a header block whose `Content-Length` field is present (the label
followed by one whitespace byte) but whose value starts with no digit is
parsed as length `0` — the regex captures the empty digit run and
`Number("")` is `0` — so the call enqueues an empty body instead of
raising the malformed-message error. -/
theorem onChunk_empty_digits_zero (st : ServerState) (chunk : List Nat) (p : Nat)
    (hsep : bufIndexOf (writeChunk st chunk).requestBuffer BODY_SPLIT_CHARS = some p)
    (hexec : execContentLength ((writeChunk st chunk).requestBuffer.take p) = some [])
    (hoff : p + 4 ≤ (writeChunk st chunk).requestBufferOffset) :
    digitsToNat [] = 0 ∧
    (onReceiveRequestBuffer st chunk).2 = none ∧
    (onReceiveRequestBuffer st chunk).1.requestMessageBufferQueue
      = st.requestMessageBufferQueue ++ [[]] := by
  have hmsg : (bufCopy (List.replicate (digitsToNat []) 0) 0
      (writeChunk st chunk).requestBuffer (p + BODY_SPLIT_CHARS.length)
      (p + BODY_SPLIT_CHARS.length + digitsToNat [])).1 = [] := by
    simp [bufCopy, digitsToNat]
  have hif : ¬ ((writeChunk st chunk).requestBufferOffset
      < p + BODY_SPLIT_CHARS.length + digitsToNat []) := by
    rw [BODY_SPLIT_CHARS_length]
    simp only [digitsToNat, List.foldl_nil]
    omega
  refine ⟨rfl, ?_, ?_⟩ <;>
    simp [onReceiveRequestBuffer, hsep, hexec, hif, hmsg, writeChunk_queue]

/-- C8: each call keeps `write_offset` within capacity, never shrinks the
allocation, and any reallocation preserves all previously stored bytes at
their offsets while adding a multiple of `BUFFER_CHUNK_SIZEBYTES` that
strictly exceeds the length of the incoming chunk. -/
theorem onChunk_buffer_invariant (st : ServerState) (chunk : List Nat)
    (hinv : st.requestBufferOffset ≤ st.requestBuffer.length) :
    (onReceiveRequestBuffer st chunk).1.requestBufferOffset
        ≤ (onReceiveRequestBuffer st chunk).1.requestBuffer.length ∧
    st.requestBuffer.length ≤ (onReceiveRequestBuffer st chunk).1.requestBuffer.length ∧
    (grownBuffer st chunk).take st.requestBuffer.length = st.requestBuffer ∧
    (∃ k, (grownBuffer st chunk).length
        = st.requestBuffer.length + BUFFER_CHUNK_SIZEBYTES * k) ∧
    (st.requestBuffer.length < st.requestBufferOffset + chunk.length →
      st.requestBuffer.length + chunk.length < (grownBuffer st chunk).length) := by
  have hblen : (writeChunk st chunk).requestBuffer.length = (grownBuffer st chunk).length :=
    writeChunk_buffer_length st chunk
  have hole : (writeChunk st chunk).requestBufferOffset
      ≤ (writeChunk st chunk).requestBuffer.length := writeChunk_offset_le st chunk hinv
  have hgrow : st.requestBuffer.length ≤ (grownBuffer st chunk).length :=
    length_le_grownBuffer st chunk
  refine ⟨?_, ?_, grownBuffer_take st chunk, grownBuffer_increment st chunk,
    grownBuffer_exceeds st chunk⟩
  · rcases onChunk_buffer_cases st chunk with h | ⟨h0, hl⟩
    · rw [h]
      exact hole
    · rw [h0, hl]
      omega
  · rcases onChunk_buffer_cases st chunk with h | ⟨h0, hl⟩
    · rw [h, hblen]
      exact hgrow
    · rw [hl, hblen]
      exact hgrow

/-- C9: over any interleaving of stdin data events and queue drains, the
bodies handed to `sendRequest` are exactly a prefix of the bodies in
enqueue order: enqueue order plus the pending queue equals submission
order followed by the pending queue, so submission is FIFO, each body is
submitted at most once and never out of order. -/
theorem adapter_queue_fifo (ops : List AdapterOp) (st : ServerState) :
    st.requestMessageBufferQueue ++ (runAdapter st ops).2.2
      = (runAdapter st ops).2.1 ++ (runAdapter st ops).1.requestMessageBufferQueue := by
  induction ops generalizing st with
  | nil => simp [runAdapter]
  | cons op ops ih =>
    cases op with
    | recv c =>
      obtain ⟨t, ht⟩ := onChunk_queue_extend st c
      simp only [runAdapter]
      rw [ht, List.drop_left, ← List.append_assoc, ← ht, ih]
    | send =>
      cases hq : st.requestMessageBufferQueue with
      | nil =>
        have hs : sendRequestMessageBuffer st = (st, none) := by
          simp [sendRequestMessageBuffer, hq]
        simp only [runAdapter, hs, Option.toList_none, List.nil_append]
        have h := ih st
        rw [hq, List.nil_append] at h
        exact h
      | cons b bodies =>
        have hs : sendRequestMessageBuffer st
            = ({ st with requestMessageBufferQueue := bodies }, some b) := by
          simp [sendRequestMessageBuffer, hq]
        simp only [runAdapter, hs, Option.toList_some, List.cons_append, List.nil_append]
        exact congrArg (List.cons b) (ih { st with requestMessageBufferQueue := bodies })

/-! ### The UTF-8 round trip hidden in the outbound template literal -/

theorem utf8EncodeChar_ascii (b : Nat) (h : b ≤ 127) :
    utf8EncodeChar b = [b] := by
  unfold utf8EncodeChar
  rw [if_pos h]

theorem utf8EncodeChar_two (b b1 : Nat) (hb1 : 194 ≤ b) (hb2 : b ≤ 223)
    (h1 : 128 ≤ b1) (h2 : b1 ≤ 191) :
    utf8EncodeChar ((b - 192) * 64 + (b1 - 128)) = [b, b1] := by
  unfold utf8EncodeChar
  rw [if_neg (by omega), if_pos (by omega)]
  simp only [List.cons.injEq, and_true]
  exact ⟨by omega, by omega⟩

theorem utf8EncodeChar_three (b b1 b2 : Nat) (hb1 : 224 ≤ b) (hb2 : b ≤ 239)
    (h1a : 128 ≤ b1) (h1b : b1 ≤ 191) (h2a : 128 ≤ b2) (h2b : b2 ≤ 191)
    (hlow : 2048 ≤ (b - 224) * 4096 + (b1 - 128) * 64 + (b2 - 128)) :
    utf8EncodeChar ((b - 224) * 4096 + (b1 - 128) * 64 + (b2 - 128))
      = [b, b1, b2] := by
  unfold utf8EncodeChar
  rw [if_neg (by omega), if_neg (by omega), if_pos (by omega)]
  simp only [List.cons.injEq, and_true]
  exact ⟨by omega, by omega, by omega⟩

theorem utf8EncodeChar_four (b b1 b2 b3 : Nat) (hb1 : 240 ≤ b) (hb2 : b ≤ 244)
    (h1a : 128 ≤ b1) (h1b : b1 ≤ 191) (h2a : 128 ≤ b2) (h2b : b2 ≤ 191)
    (h3a : 128 ≤ b3) (h3b : b3 ≤ 191)
    (hlow : 65536 ≤ (b - 240) * 262144 + (b1 - 128) * 4096 + (b2 - 128) * 64 + (b3 - 128)) :
    utf8EncodeChar ((b - 240) * 262144 + (b1 - 128) * 4096 + (b2 - 128) * 64 + (b3 - 128))
      = [b, b1, b2, b3] := by
  unfold utf8EncodeChar
  rw [if_neg (by omega), if_neg (by omega), if_neg (by omega)]
  simp only [List.cons.injEq, and_true]
  exact ⟨by omega, by omega, by omega, by omega⟩

/-- On valid UTF-8 input the lossy decode followed by re-encoding is the
identity: such bodies pass through the outbound template literal
unchanged. -/
theorem utf8Encode_utf8Decode (l : List Nat) :
    isUtf8 l = true → utf8Encode (utf8Decode l) = l := by
  induction l using utf8Decode.induct with
  | case1 =>
    intro _
    simp [utf8Decode, utf8Encode]
  | case2 b rest h1 ih =>
    intro h
    unfold isUtf8 at h
    simp only [if_pos h1] at h
    unfold utf8Decode
    simp only [if_pos h1, utf8Encode, utf8EncodeChar_ascii b h1, ih h]
    rfl
  | case3 b h1 h2 =>
    intro h
    unfold isUtf8 at h
    simp [h1, h2] at h
  | case4 b h1 h2 b1 rest h3 ih =>
    intro h
    unfold isUtf8 at h
    simp only [if_neg h1, h2, if_true, h3, Bool.true_and] at h
    have h2b := h2
    simp only [Bool.and_eq_true, decide_eq_true_eq] at h2b
    have h3b := h3
    simp only [isContinuationByte, Bool.and_eq_true, decide_eq_true_eq] at h3b
    unfold utf8Decode
    simp only [if_neg h1, h2, if_true, h3, utf8Encode,
      utf8EncodeChar_two b b1 h2b.1 h2b.2 h3b.1 h3b.2, ih h]
    rfl
  | case5 b h1 h2 b1 rest h3 ih =>
    intro h
    unfold isUtf8 at h
    simp [h1, h2, h3] at h
  | case6 b h1 h2 h3 =>
    intro h
    unfold isUtf8 at h
    simp [h1, h2, h3] at h
  | case7 b h1 h2 h3 b1 h4 =>
    intro h
    unfold isUtf8 at h
    simp [h1, h2, h3, h4] at h
  | case8 b h1 h2 h3 b1 h4 b2 rest h5 ih =>
    intro h
    unfold isUtf8 at h
    simp only [if_neg h1, h2, h3, h4, h5, if_true, if_false, Bool.true_and,
      Bool.false_eq_true] at h
    have h3b := h3
    simp only [Bool.and_eq_true, decide_eq_true_eq] at h3b
    have h4b := h4
    simp only [Bool.and_eq_true, decide_eq_true_eq] at h4b
    have hb1 : 128 ≤ b1 ∧ b1 ≤ 191 := by
      obtain ⟨ha, hc⟩ := h4b
      constructor
      · by_cases hE : b = 224
        · rw [if_pos hE] at ha; omega
        · rw [if_neg hE] at ha; omega
      · by_cases hD : b = 237
        · rw [if_pos hD] at hc; omega
        · rw [if_neg hD] at hc; omega
    have h5b := h5
    simp only [isContinuationByte, Bool.and_eq_true, decide_eq_true_eq] at h5b
    have hlow : 2048 ≤ (b - 224) * 4096 + (b1 - 128) * 64 + (b2 - 128) := by
      obtain ⟨ha, hc⟩ := h4b
      by_cases hE : b = 224
      · rw [if_pos hE] at ha
        omega
      · omega
    unfold utf8Decode
    simp only [if_neg h1, h2, h3, h4, h5, if_true, if_false, utf8Encode,
      utf8EncodeChar_three b b1 b2 h3b.1 h3b.2 hb1.1 hb1.2 h5b.1 h5b.2 hlow, ih h]
    rfl
  | case9 b h1 h2 h3 b1 h4 b2 rest h5 ih =>
    intro h
    unfold isUtf8 at h
    simp [h1, h2, h3, h4, h5] at h
  | case10 b h1 h2 h3 b1 rest h4 ih =>
    intro h
    unfold isUtf8 at h
    simp [h1, h2, h3, h4] at h
  | case11 b h1 h2 h3 h4 =>
    intro h
    unfold isUtf8 at h
    simp [h1, h2, h3, h4] at h
  | case12 b h1 h2 h3 h4 b1 h5 =>
    intro h
    unfold isUtf8 at h
    simp [h1, h2, h3, h4, h5] at h
  | case13 b h1 h2 h3 h4 b1 h5 b2 h6 =>
    intro h
    unfold isUtf8 at h
    simp [h1, h2, h3, h4, h5, h6] at h
  | case14 b h1 h2 h3 h4 b1 h5 b2 h6 b3 rest h7 ih =>
    intro h
    unfold isUtf8 at h
    simp only [if_neg h1, h2, h3, h4, h5, h6, h7, if_true, if_false, Bool.true_and,
      Bool.false_eq_true] at h
    have h4b := h4
    simp only [Bool.and_eq_true, decide_eq_true_eq] at h4b
    have h5b := h5
    simp only [Bool.and_eq_true, decide_eq_true_eq] at h5b
    have hb1 : 128 ≤ b1 ∧ b1 ≤ 191 := by
      obtain ⟨ha, hc⟩ := h5b
      constructor
      · by_cases hF : b = 240
        · rw [if_pos hF] at ha; omega
        · rw [if_neg hF] at ha; omega
      · by_cases hG : b = 244
        · rw [if_pos hG] at hc; omega
        · rw [if_neg hG] at hc; omega
    have h6b := h6
    simp only [isContinuationByte, Bool.and_eq_true, decide_eq_true_eq] at h6b
    have h7b := h7
    simp only [isContinuationByte, Bool.and_eq_true, decide_eq_true_eq] at h7b
    have hlow : 65536 ≤ (b - 240) * 262144 + (b1 - 128) * 4096
        + (b2 - 128) * 64 + (b3 - 128) := by
      obtain ⟨ha, hc⟩ := h5b
      by_cases hF : b = 240
      · rw [if_pos hF] at ha
        omega
      · omega
    unfold utf8Decode
    simp only [if_neg h1, h2, h3, h4, h5, h6, h7, if_true, if_false, utf8Encode,
      utf8EncodeChar_four b b1 b2 b3 h4b.1 h4b.2 hb1.1 hb1.2 h6b.1 h6b.2 h7b.1
        h7b.2 hlow, ih h]
    rfl
  | case15 b h1 h2 h3 h4 b1 h5 b2 h6 b3 rest h7 ih =>
    intro h
    unfold isUtf8 at h
    simp [h1, h2, h3, h4, h5, h6, h7] at h
  | case16 b h1 h2 h3 h4 b1 h5 b2 rest h6 ih =>
    intro h
    unfold isUtf8 at h
    simp [h1, h2, h3, h4, h5, h6] at h
  | case17 b h1 h2 h3 h4 b1 rest h5 ih =>
    intro h
    unfold isUtf8 at h
    simp [h1, h2, h3, h4, h5] at h
  | case18 b rest h1 h2 h3 h4 ih =>
    intro h
    unfold isUtf8 at h
    simp [h1, h2, h3, h4] at h

/-- The encoder output is the canonical header followed by the separator
and the UTF-8 round trip of the body, with the leading `Content-Length: `
text split off. -/
theorem onResponseBuffer_shape (body : List Nat) :
    onResponseBuffer body
      = (CONTENT_LENGTH_LABEL ++ 32 :: natToDecimalBytes body.length)
          ++ BODY_SPLIT_CHARS ++ utf8Encode (utf8Decode body) := by
  simp only [onResponseBuffer]
  rw [show strBytes "Content-Length: " = CONTENT_LENGTH_LABEL ++ [32] from rfl]
  simp [List.append_assoc]

/-- No byte of the canonical header is a carriage return. -/
theorem canonical_header_clean (body : List Nat) :
    ∀ b ∈ CONTENT_LENGTH_LABEL ++ 32 :: natToDecimalBytes body.length, b ≠ 13 := by
  intro b hb
  rcases List.mem_append.mp hb with h | h
  · have hlab : ∀ b ∈ CONTENT_LENGTH_LABEL, b ≠ 13 := by decide
    exact hlab b h
  · rcases List.mem_cons.mp h with rfl | h
    · decide
    · exact natToDecimalBytes_ne13 _ b h

theorem canonical_header_length (body : List Nat) :
    (CONTENT_LENGTH_LABEL ++ 32 :: natToDecimalBytes body.length).length
      = 16 + (natToDecimalBytes body.length).length := by
  simp only [List.length_append, List.length_cons,
    show CONTENT_LENGTH_LABEL.length = 15 from rfl]
  omega

/-- C5 (amended): decoding a wire image produced by the encoder from a
valid-UTF-8 body succeeds from the start state, enqueues exactly the
encoded body, and re-encoding that body reproduces the wire image byte
for byte. (For bodies that are not valid UTF-8 the encoder itself mangles
the wire, see the counterexample.) -/
theorem encode_decode_roundtrip (wire body : List Nat)
    (hwf : wire = onResponseBuffer body) (hutf : isUtf8 body = true) :
    (onReceiveRequestBuffer initialState wire).2 = none ∧
    (onReceiveRequestBuffer initialState wire).1.requestMessageBufferQueue = [body] ∧
    onResponseBuffer body = wire := by
  subst hwf
  have hround : utf8Encode (utf8Decode body) = body :=
    utf8Encode_utf8Decode body hutf
  obtain ⟨z, hw⟩ := writeChunk_initial (onResponseBuffer body)
  have hbuf : (writeChunk initialState (onResponseBuffer body)).requestBuffer
      = (CONTENT_LENGTH_LABEL ++ 32 :: natToDecimalBytes body.length)
          ++ BODY_SPLIT_CHARS ++ (body ++ List.replicate z 0) := by
    rw [hw]
    show onResponseBuffer body ++ List.replicate z 0 = _
    rw [onResponseBuffer_shape, hround]
    simp [List.append_assoc]
  have hexec := execContentLength_canonical (natToDecimalBytes body.length)
    (natToDecimalBytes_digits body.length)
  have hn := digitsToNat_natToDecimalBytes body.length
  have hoffv : (writeChunk initialState (onResponseBuffer body)).requestBufferOffset
      = (onResponseBuffer body).length := by
    rw [hw]
  have hlenw : (onResponseBuffer body).length
      = (CONTENT_LENGTH_LABEL ++ 32 :: natToDecimalBytes body.length).length
          + 4 + body.length := by
    rw [onResponseBuffer_shape, hround]
    simp only [List.length_append, List.length_cons, BODY_SPLIT_CHARS_length]
  have h := onChunk_extract_eq initialState (onResponseBuffer body)
    (CONTENT_LENGTH_LABEL ++ 32 :: natToDecimalBytes body.length)
    (body ++ List.replicate z 0) (natToDecimalBytes body.length) body.length
    hbuf (canonical_header_clean body) hexec hn
    (by simp only [List.length_append]; omega)
    (by rw [hoffv, hlenw])
  rw [h]
  refine ⟨rfl, ?_, rfl⟩
  show initialState.requestMessageBufferQueue
      ++ [(body ++ List.replicate z 0).take body.length] = [body]
  rw [List.take_left]
  rfl

/-- C5 witness: the round trip at the concrete body `"hi"`. -/
theorem encode_decode_roundtrip_witness :
    (onReceiveRequestBuffer initialState (onResponseBuffer (strBytes "hi"))).2 = none ∧
    (onReceiveRequestBuffer initialState
      (onResponseBuffer (strBytes "hi"))).1.requestMessageBufferQueue
        = [strBytes "hi"] ∧
    onResponseBuffer (strBytes "hi") = onResponseBuffer (strBytes "hi") :=
  encode_decode_roundtrip (onResponseBuffer (strBytes "hi")) (strBytes "hi") rfl
    (by decide)

/-- C6 (amended): for every body, the encoder emits a header whose first
separator occurrence sits right after the header text and whose
`Content-Length` field parses back (by the inbound regex and `Number`
semantics) to the byte length of the ORIGINAL body, followed by the UTF-8
re-encoding of the lossy UTF-8 decoding of the body (the template
literal's `Buffer` interpolation); as a Lean function of `body` alone it
is pure and deterministic. The emitted tail is the body verbatim whenever
the body is valid UTF-8. -/
theorem onResponseBuffer_frames_body (body : List Nat) :
    bufIndexOf (onResponseBuffer body) BODY_SPLIT_CHARS
      = some (16 + (natToDecimalBytes body.length).length) ∧
    execContentLength ((onResponseBuffer body).take
        (16 + (natToDecimalBytes body.length).length))
      = some (natToDecimalBytes body.length) ∧
    digitsToNat (natToDecimalBytes body.length) = body.length ∧
    (onResponseBuffer body).drop (16 + (natToDecimalBytes body.length).length + 4)
      = utf8Encode (utf8Decode body) ∧
    (isUtf8 body = true →
      (onResponseBuffer body).drop
          (16 + (natToDecimalBytes body.length).length + 4)
        = body) := by
  have hdrop : (onResponseBuffer body).drop
      (16 + (natToDecimalBytes body.length).length + 4)
      = utf8Encode (utf8Decode body) := by
    rw [onResponseBuffer_shape,
      show 16 + (natToDecimalBytes body.length).length + 4
        = ((CONTENT_LENGTH_LABEL ++ 32 :: natToDecimalBytes body.length)
            ++ BODY_SPLIT_CHARS).length from by
        simp only [List.length_append, List.length_cons, BODY_SPLIT_CHARS_length,
          show CONTENT_LENGTH_LABEL.length = 15 from rfl]
        omega,
      List.drop_left]
  refine ⟨?_, ?_, digitsToNat_natToDecimalBytes body.length, hdrop,
    fun hutf => by rw [hdrop, utf8Encode_utf8Decode body hutf]⟩
  · rw [onResponseBuffer_shape, bufIndexOf_split _ _ (canonical_header_clean body),
      canonical_header_length]
  · rw [onResponseBuffer_shape, ← canonical_header_length, List.append_assoc,
      List.take_left]
    exact execContentLength_canonical _ (natToDecimalBytes_digits body.length)

/-- Writing a small first chunk into the fresh 2048-byte buffer. -/
theorem writeChunk_initial_small (chunk : List Nat) (L : Nat)
    (hL : chunk.length = L) (hle : L ≤ 2048) :
    writeChunk initialState chunk =
      { requestBuffer := chunk ++ List.replicate (2048 - L) 0
        requestBufferOffset := L
        requestMessageBufferQueue := [] } := by
  rw [writeChunk_at_zero initialState chunk rfl
    (by simp only [initialState, List.length_replicate, BUFFER_CHUNK_SIZEBYTES, hL]
        exact hle)]
  have hdrop : initialState.requestBuffer.drop chunk.length
      = List.replicate (2048 - L) 0 := by
    show (List.replicate BUFFER_CHUNK_SIZEBYTES 0).drop chunk.length = _
    rw [hL, List.drop_replicate]
    rfl
  rw [hdrop, hL]
  rfl

/-- The pipelining example of the spec, evaluated: one call on a chunk
holding two complete zero-length messages extracts only the first one;
the second is shifted to the front of the buffer while the offset is
reset to `0`. -/
theorem onChunk_doubleZero :
    onReceiveRequestBuffer initialState
        (strBytes "Content-Length: 0\r\n\r\nContent-Length: 0\r\n\r\n")
      = ({ requestBuffer :=
             (strBytes "Content-Length: 0\r\n\r\n" ++ List.replicate 2006 0)
               ++ (strBytes "Content-Length: 0" ++ BODY_SPLIT_CHARS
                   ++ (strBytes "Content-Length: 0\r\n\r\n"
                       ++ List.replicate 2006 0)).drop 2027
           requestBufferOffset := 0
           requestMessageBufferQueue := [[]] }, none) := by
  have hw := writeChunk_initial_small
    (strBytes "Content-Length: 0\r\n\r\nContent-Length: 0\r\n\r\n") 42 (by decide)
    (by norm_num)
  have hbuf : (writeChunk initialState
      (strBytes "Content-Length: 0\r\n\r\nContent-Length: 0\r\n\r\n")).requestBuffer
      = strBytes "Content-Length: 0" ++ BODY_SPLIT_CHARS
          ++ (strBytes "Content-Length: 0\r\n\r\n" ++ List.replicate 2006 0) := by
    rw [hw]
    show strBytes "Content-Length: 0\r\n\r\nContent-Length: 0\r\n\r\n"
        ++ List.replicate (2048 - 42) 0 = _
    rw [show strBytes "Content-Length: 0\r\n\r\nContent-Length: 0\r\n\r\n"
        = (strBytes "Content-Length: 0" ++ BODY_SPLIT_CHARS)
            ++ strBytes "Content-Length: 0\r\n\r\n" from by decide,
      List.append_assoc]
  have h := onChunk_extract_eq initialState
    (strBytes "Content-Length: 0\r\n\r\nContent-Length: 0\r\n\r\n")
    (strBytes "Content-Length: 0")
    (strBytes "Content-Length: 0\r\n\r\n" ++ List.replicate 2006 0) [48] 0
    hbuf (by decide) (by decide) (by decide) (Nat.zero_le _)
    (by rw [hw]; decide)
  have hlen : (strBytes "Content-Length: 0\r\n\r\n" ++ List.replicate 2006 0).length
      = 2027 := by
    simp only [List.length_append, List.length_replicate,
      show (strBytes "Content-Length: 0\r\n\r\n").length = 21 from rfl]
  have e1 : List.drop 0 (strBytes "Content-Length: 0\r\n\r\n" ++ List.replicate 2006 0)
      = strBytes "Content-Length: 0\r\n\r\n" ++ List.replicate 2006 0 :=
    List.drop_zero _
  have e2 : (strBytes "Content-Length: 0\r\n\r\n" ++ List.replicate 2006 0).length - 0
      = 2027 := by
    rw [Nat.sub_zero]
    exact hlen
  have e3 : List.take 0 (strBytes "Content-Length: 0\r\n\r\n" ++ List.replicate 2006 0)
      = ([] : List Nat) :=
    List.take_zero _
  rw [h, e1, e2, e3]
  rfl

/-- C2: the example chunk of the spec, containing two complete back-to-back
zero-length messages yields only ONE enqueued body from one call — the
code has no loop back to the separator search, so the second message is
not extracted in the same call (and, with the offset reset to `0`, it is
overwritten by the next chunk). This refutes the claimed two-message
pipelining. -/
theorem onChunk_pipelined_single_extraction :
    (onReceiveRequestBuffer initialState
      (strBytes "Content-Length: 0\r\n\r\nContent-Length: 0\r\n\r\n")).1.requestMessageBufferQueue
        = [[]] ∧
    (onReceiveRequestBuffer initialState
      (strBytes "Content-Length: 0\r\n\r\nContent-Length: 0\r\n\r\n")).2 = none := by
  rw [onChunk_doubleZero]
  exact ⟨rfl, rfl⟩

/-- C3: after extracting a message the code does shift the following bytes
to offset `0`, but it resets `write_offset` to `0` — not to the length of
the shifted remainder — so the valid region `[0, write_offset)` is empty
even though a complete second message (21 bytes here) was shifted down.
This refutes the claimed compaction bookkeeping. -/
theorem onChunk_compaction_offset_zero :
    (onReceiveRequestBuffer initialState
      (strBytes "Content-Length: 0\r\n\r\nContent-Length: 0\r\n\r\n")).1.requestBufferOffset
        = 0 ∧
    (onReceiveRequestBuffer initialState
      (strBytes "Content-Length: 0\r\n\r\nContent-Length: 0\r\n\r\n")).1.requestBuffer.take 21
        = strBytes "Content-Length: 0\r\n\r\n" := by
  rw [onChunk_doubleZero]
  refine ⟨rfl, ?_⟩
  show ((strBytes "Content-Length: 0\r\n\r\n" ++ List.replicate 2006 0) ++ _).take 21 = _
  rw [List.append_assoc,
    show (21 : Nat) = (strBytes "Content-Length: 0\r\n\r\n").length from rfl,
    List.take_left]

/-- First call of the split-message trace: the chunk carries one complete
message (body `"A"`) plus the first 10 bytes of the next message; the call
extracts `"A"`, shifts the 10-byte remainder to the front and resets the
offset to `0`. -/
theorem onChunk_c1_first :
    onReceiveRequestBuffer initialState (strBytes "Content-Length: 1\r\n\r\nAContent-Le")
      = ({ requestBuffer :=
             (strBytes "Content-Le" ++ List.replicate 2016 0)
               ++ (strBytes "Content-Length: 1" ++ BODY_SPLIT_CHARS
                   ++ (strBytes "AContent-Le" ++ List.replicate 2016 0)).drop 2026
           requestBufferOffset := 0
           requestMessageBufferQueue := [strBytes "A"] }, none) := by
  have hw := writeChunk_initial_small (strBytes "Content-Length: 1\r\n\r\nAContent-Le")
    32 (by decide) (by norm_num)
  have hbuf : (writeChunk initialState
      (strBytes "Content-Length: 1\r\n\r\nAContent-Le")).requestBuffer
      = strBytes "Content-Length: 1" ++ BODY_SPLIT_CHARS
          ++ (strBytes "AContent-Le" ++ List.replicate 2016 0) := by
    rw [hw]
    show strBytes "Content-Length: 1\r\n\r\nAContent-Le"
        ++ List.replicate (2048 - 32) 0 = _
    rw [show strBytes "Content-Length: 1\r\n\r\nAContent-Le"
        = (strBytes "Content-Length: 1" ++ BODY_SPLIT_CHARS)
            ++ strBytes "AContent-Le" from by decide,
      List.append_assoc]
  have h := onChunk_extract_eq initialState
    (strBytes "Content-Length: 1\r\n\r\nAContent-Le")
    (strBytes "Content-Length: 1") (strBytes "AContent-Le" ++ List.replicate 2016 0)
    [49] 1 hbuf (by decide) (by decide) (by decide)
    (by rw [List.length_append, List.length_replicate]; omega)
    (by rw [hw]; decide)
  have e1 : List.drop 1 (strBytes "AContent-Le" ++ List.replicate 2016 0)
      = strBytes "Content-Le" ++ List.replicate 2016 0 := by
    rw [List.drop_append_of_le_length (by decide),
      show List.drop 1 (strBytes "AContent-Le") = strBytes "Content-Le" from by decide]
  have e2 : (strBytes "AContent-Le" ++ List.replicate 2016 0).length - 1 = 2026 := by
    simp only [List.length_append, List.length_replicate,
      show (strBytes "AContent-Le").length = 11 from rfl]
  have e3 : List.take 1 (strBytes "AContent-Le" ++ List.replicate 2016 0)
      = strBytes "A" := by
    rw [List.take_append_of_le_length (by decide),
      show List.take 1 (strBytes "AContent-Le") = strBytes "A" from by decide]
  rw [h, e1, e2, e3]
  rfl

/-- Second call of the split-message trace: because the previous call left
the offset at `0`, the 12-byte tail chunk overwrites the buffered start of
the next message; the visible header block is then `"ngth: 1"`, which has
no `Content-Length` match, so the call throws instead of completing the
split message. Any state with offset `0` and capacity at least 12 ends
this way. -/
theorem onChunk_overwrite_throw (st : ServerState)
    (hoff : st.requestBufferOffset = 0)
    (hlen : 12 ≤ st.requestBuffer.length) :
    onReceiveRequestBuffer st (strBytes "ngth: 1\r\n\r\nB")
      = (writeChunk st (strBytes "ngth: 1\r\n\r\nB"),
         some FramerError.malformedMessage) := by
  have hw := writeChunk_at_zero st (strBytes "ngth: 1\r\n\r\nB") hoff
    (by rw [show (strBytes "ngth: 1\r\n\r\nB").length = 12 from rfl]; exact hlen)
  have hbuf : (writeChunk st (strBytes "ngth: 1\r\n\r\nB")).requestBuffer
      = strBytes "ngth: 1" ++ BODY_SPLIT_CHARS
          ++ ([66] ++ st.requestBuffer.drop 12) := by
    rw [hw]
    show strBytes "ngth: 1\r\n\r\nB"
        ++ st.requestBuffer.drop (strBytes "ngth: 1\r\n\r\nB").length = _
    rw [show (strBytes "ngth: 1\r\n\r\nB").length = 12 from rfl,
      show strBytes "ngth: 1\r\n\r\nB"
        = (strBytes "ngth: 1" ++ BODY_SPLIT_CHARS) ++ [66] from by decide,
      List.append_assoc]
  exact onChunk_throw_eq st _ (strBytes "ngth: 1") ([66] ++ st.requestBuffer.drop 12)
    hbuf (by decide) (by decide)

set_option maxRecDepth 4000 in
/-- C1: chunk-boundary invariance fails. The wire bytes of the two
messages `"Content-Length: 1\r\n\r\nA"` and `"Content-Length: 1\r\n\r\nB"`
are split after byte 32. Feeding the two chunks in order enqueues only
body `"A"`: the first call resets the offset to `0`, the second chunk
overwrites the buffered first half of message two, and the second call
throws a malformed-message error — body `"B"` is lost. -/
theorem onChunk_chunk_boundary_loss :
    (onReceiveRequestBuffer initialState
        (strBytes "Content-Length: 1\r\n\r\nAContent-Le")).2 = none ∧
    (onReceiveRequestBuffer initialState
        (strBytes "Content-Length: 1\r\n\r\nAContent-Le")).1.requestMessageBufferQueue
      = [strBytes "A"] ∧
    (onReceiveRequestBuffer
        (onReceiveRequestBuffer initialState
          (strBytes "Content-Length: 1\r\n\r\nAContent-Le")).1
        (strBytes "ngth: 1\r\n\r\nB")).2 = some FramerError.malformedMessage ∧
    (onReceiveRequestBuffer
        (onReceiveRequestBuffer initialState
          (strBytes "Content-Length: 1\r\n\r\nAContent-Le")).1
        (strBytes "ngth: 1\r\n\r\nB")).1.requestMessageBufferQueue
      = [strBytes "A"] := by
  rw [onChunk_c1_first]
  have h2 : onReceiveRequestBuffer
      ({ requestBuffer :=
          (strBytes "Content-Le" ++ List.replicate 2016 0)
            ++ (strBytes "Content-Length: 1" ++ BODY_SPLIT_CHARS
                ++ (strBytes "AContent-Le" ++ List.replicate 2016 0)).drop 2026
         requestBufferOffset := 0
         requestMessageBufferQueue := [strBytes "A"] } : ServerState)
      (strBytes "ngth: 1\r\n\r\nB")
      = (writeChunk
          { requestBuffer :=
              (strBytes "Content-Le" ++ List.replicate 2016 0)
                ++ (strBytes "Content-Length: 1" ++ BODY_SPLIT_CHARS
                    ++ (strBytes "AContent-Le" ++ List.replicate 2016 0)).drop 2026
            requestBufferOffset := 0
            requestMessageBufferQueue := [strBytes "A"] }
          (strBytes "ngth: 1\r\n\r\nB"),
         some FramerError.malformedMessage) := by
    apply onChunk_overwrite_throw
    · rfl
    · simp only [List.length_append, List.length_drop, List.length_replicate,
        BODY_SPLIT_CHARS_length,
        show (strBytes "Content-Le").length = 10 from rfl,
        show (strBytes "Content-Length: 1").length = 17 from rfl,
        show (strBytes "AContent-Le").length = 11 from rfl]
      omega
  rw [h2]
  exact ⟨rfl, rfl, rfl, rfl⟩

/-- C4 (counterexample): a header block whose `Content-Length` value is
the non-numeric `abc` does NOT trigger the fatal error: the pattern
`\d*` matches the empty digit run, the length parses as `0`, and the call
silently succeeds, enqueuing an empty body. -/
theorem onChunk_nonnumeric_length_accepted :
    (onReceiveRequestBuffer initialState (strBytes "Content-Length: abc\r\n\r\n")).2
        = none ∧
    (onReceiveRequestBuffer initialState
        (strBytes "Content-Length: abc\r\n\r\n")).1.requestMessageBufferQueue
      = [[]] := by
  have hw := writeChunk_initial_small (strBytes "Content-Length: abc\r\n\r\n") 23
    (by decide) (by norm_num)
  have hbuf : (writeChunk initialState
      (strBytes "Content-Length: abc\r\n\r\n")).requestBuffer
      = strBytes "Content-Length: abc" ++ BODY_SPLIT_CHARS
          ++ List.replicate 2025 0 := by
    rw [hw]
    show strBytes "Content-Length: abc\r\n\r\n" ++ List.replicate (2048 - 23) 0 = _
    rw [show strBytes "Content-Length: abc\r\n\r\n"
        = strBytes "Content-Length: abc" ++ BODY_SPLIT_CHARS from by decide]
  have h := onChunk_extract_eq initialState (strBytes "Content-Length: abc\r\n\r\n")
    (strBytes "Content-Length: abc") (List.replicate 2025 0) [] 0
    hbuf (by decide) (by decide) (by decide) (Nat.zero_le _)
    (by rw [hw]; decide)
  rw [h]
  exact ⟨rfl, rfl⟩

/-- C4 witness: the header block `"Hello"` has no `Content-Length` match,
so the call on `"Hello\r\n\r\n"` throws. -/
theorem onChunk_missing_header_fatal_witness :
    onReceiveRequestBuffer initialState (strBytes "Hello\r\n\r\n")
      = (writeChunk initialState (strBytes "Hello\r\n\r\n"),
         some FramerError.malformedMessage) := by
  have hw := writeChunk_initial_small (strBytes "Hello\r\n\r\n") 9 (by decide)
    (by norm_num)
  have hbuf : (writeChunk initialState (strBytes "Hello\r\n\r\n")).requestBuffer
      = strBytes "Hello" ++ BODY_SPLIT_CHARS ++ List.replicate 2039 0 := by
    rw [hw]
    show strBytes "Hello\r\n\r\n" ++ List.replicate (2048 - 9) 0 = _
    rw [show strBytes "Hello\r\n\r\n"
        = strBytes "Hello" ++ BODY_SPLIT_CHARS from by decide]
  have hsep : bufIndexOf (writeChunk initialState
      (strBytes "Hello\r\n\r\n")).requestBuffer BODY_SPLIT_CHARS = some 5 := by
    rw [hbuf, bufIndexOf_split _ _ (by decide)]
    rfl
  have hexec : execContentLength ((writeChunk initialState
      (strBytes "Hello\r\n\r\n")).requestBuffer.take 5) = none := by
    rw [hbuf, show (5 : Nat) = (strBytes "Hello").length from rfl,
      List.append_assoc, List.take_left]
    decide
  exact onChunk_missing_header_fatal initialState (strBytes "Hello\r\n\r\n") 5 hsep hexec

/-- C7 witness: the single message `"Content-Length: 0\r\n\r\n"` enqueues
exactly one empty body. -/
theorem onChunk_zero_length_body_witness :
    (onReceiveRequestBuffer initialState (strBytes "Content-Length: 0\r\n\r\n")).2
        = none ∧
    (onReceiveRequestBuffer initialState
        (strBytes "Content-Length: 0\r\n\r\n")).1.requestMessageBufferQueue
      = initialState.requestMessageBufferQueue ++ [[]] := by
  have hw := writeChunk_initial_small (strBytes "Content-Length: 0\r\n\r\n") 21
    (by decide) (by norm_num)
  have hbuf : (writeChunk initialState
      (strBytes "Content-Length: 0\r\n\r\n")).requestBuffer
      = strBytes "Content-Length: 0" ++ BODY_SPLIT_CHARS
          ++ List.replicate 2027 0 := by
    rw [hw]
    show strBytes "Content-Length: 0\r\n\r\n" ++ List.replicate (2048 - 21) 0 = _
    rw [show strBytes "Content-Length: 0\r\n\r\n"
        = strBytes "Content-Length: 0" ++ BODY_SPLIT_CHARS from by decide]
  have hsep : bufIndexOf (writeChunk initialState
      (strBytes "Content-Length: 0\r\n\r\n")).requestBuffer BODY_SPLIT_CHARS
      = some 17 := by
    rw [hbuf, bufIndexOf_split _ _ (by decide)]
    rfl
  have hexec : execContentLength ((writeChunk initialState
      (strBytes "Content-Length: 0\r\n\r\n")).requestBuffer.take 17)
      = some [48] := by
    rw [hbuf, show (17 : Nat) = (strBytes "Content-Length: 0").length from rfl,
      List.append_assoc, List.take_left]
    decide
  have hoff : 17 + 4 ≤ (writeChunk initialState
      (strBytes "Content-Length: 0\r\n\r\n")).requestBufferOffset := by
    rw [hw]
  exact onChunk_zero_length_body initialState (strBytes "Content-Length: 0\r\n\r\n")
    17 [48] hsep hexec (by decide) hoff

/-- C10 witness: the header `"Content-Length: abc"` parses to length `0`
and the call on `"Content-Length: abc\r\n\r\n"` enqueues one empty body
without an error. -/
theorem onChunk_empty_digits_zero_witness :
    digitsToNat [] = 0 ∧
    (onReceiveRequestBuffer initialState (strBytes "Content-Length: abc\r\n\r\n")).2
        = none ∧
    (onReceiveRequestBuffer initialState
        (strBytes "Content-Length: abc\r\n\r\n")).1.requestMessageBufferQueue
      = initialState.requestMessageBufferQueue ++ [[]] := by
  have hw := writeChunk_initial_small (strBytes "Content-Length: abc\r\n\r\n") 23
    (by decide) (by norm_num)
  have hbuf : (writeChunk initialState
      (strBytes "Content-Length: abc\r\n\r\n")).requestBuffer
      = strBytes "Content-Length: abc" ++ BODY_SPLIT_CHARS
          ++ List.replicate 2025 0 := by
    rw [hw]
    show strBytes "Content-Length: abc\r\n\r\n" ++ List.replicate (2048 - 23) 0 = _
    rw [show strBytes "Content-Length: abc\r\n\r\n"
        = strBytes "Content-Length: abc" ++ BODY_SPLIT_CHARS from by decide]
  have hsep : bufIndexOf (writeChunk initialState
      (strBytes "Content-Length: abc\r\n\r\n")).requestBuffer BODY_SPLIT_CHARS
      = some 19 := by
    rw [hbuf, bufIndexOf_split _ _ (by decide)]
    rfl
  have hexec : execContentLength ((writeChunk initialState
      (strBytes "Content-Length: abc\r\n\r\n")).requestBuffer.take 19)
      = some [] := by
    rw [hbuf, show (19 : Nat) = (strBytes "Content-Length: abc").length from rfl,
      List.append_assoc, List.take_left]
    decide
  have hoff : 19 + 4 ≤ (writeChunk initialState
      (strBytes "Content-Length: abc\r\n\r\n")).requestBufferOffset := by
    rw [hw]
  exact onChunk_empty_digits_zero initialState (strBytes "Content-Length: abc\r\n\r\n")
    19 hsep hexec hoff

/-- C8 witness: the invariant conclusion at the start state and the
concrete chunk `"hi"`. -/
theorem onChunk_buffer_invariant_witness :
    (onReceiveRequestBuffer initialState (strBytes "hi")).1.requestBufferOffset
        ≤ (onReceiveRequestBuffer initialState (strBytes "hi")).1.requestBuffer.length ∧
    initialState.requestBuffer.length
        ≤ (onReceiveRequestBuffer initialState (strBytes "hi")).1.requestBuffer.length ∧
    (grownBuffer initialState (strBytes "hi")).take initialState.requestBuffer.length
        = initialState.requestBuffer ∧
    (∃ k, (grownBuffer initialState (strBytes "hi")).length
        = initialState.requestBuffer.length + BUFFER_CHUNK_SIZEBYTES * k) ∧
    (initialState.requestBuffer.length
        < initialState.requestBufferOffset + (strBytes "hi").length →
      initialState.requestBuffer.length + (strBytes "hi").length
        < (grownBuffer initialState (strBytes "hi")).length) :=
  onChunk_buffer_invariant initialState (strBytes "hi") (Nat.zero_le _)

/-- The decimal rendering of length `1`. -/
theorem natToDecimalBytes_one : natToDecimalBytes 1 = [49] := by
  unfold natToDecimalBytes
  rw [if_neg one_ne_zero,
    Nat.digits_def' (by norm_num : (1 : Nat) < 10) (by norm_num : (0 : Nat) < 1)]
  norm_num

/-- Evaluation of the encoder on the single non-UTF-8 byte `0xFF`: the
interpolation decodes it to U+FFFD and the write re-encodes that as
`EF BF BD`, while the declared length stays `1`. -/
theorem onResponseBuffer_255_eq :
    onResponseBuffer [255] = strBytes "Content-Length: 1\r\n\r\n" ++ [239, 191, 189] := by
  unfold onResponseBuffer
  rw [show ([255] : List Nat).length = 1 from rfl, natToDecimalBytes_one]
  decide

/-- C6 (counterexample): the encoder does NOT emit every body verbatim:
for the body `[0xFF]` (not valid UTF-8) it emits the three replacement
bytes `EF BF BD` after a header still declaring length `1`. -/
theorem onResponseBuffer_mangles_nonUtf8 :
    onResponseBuffer [255] = strBytes "Content-Length: 1\r\n\r\n" ++ [239, 191, 189] ∧
    onResponseBuffer [255] ≠ strBytes "Content-Length: 1\r\n\r\n" ++ [255] := by
  refine ⟨onResponseBuffer_255_eq, ?_⟩
  rw [onResponseBuffer_255_eq]
  decide

/-- C6 witness: the framing conclusions at the concrete ASCII body
`"hi"`, with the valid-UTF-8 hypothesis of the final conjunct
discharged. -/
theorem onResponseBuffer_frames_body_witness :
    bufIndexOf (onResponseBuffer (strBytes "hi")) BODY_SPLIT_CHARS
      = some (16 + (natToDecimalBytes (strBytes "hi").length).length) ∧
    execContentLength ((onResponseBuffer (strBytes "hi")).take
        (16 + (natToDecimalBytes (strBytes "hi").length).length))
      = some (natToDecimalBytes (strBytes "hi").length) ∧
    digitsToNat (natToDecimalBytes (strBytes "hi").length)
      = (strBytes "hi").length ∧
    (onResponseBuffer (strBytes "hi")).drop
        (16 + (natToDecimalBytes (strBytes "hi").length).length + 4)
      = utf8Encode (utf8Decode (strBytes "hi")) ∧
    (onResponseBuffer (strBytes "hi")).drop
        (16 + (natToDecimalBytes (strBytes "hi").length).length + 4)
      = strBytes "hi" := by
  obtain ⟨h1, h2, h3, h4, h5⟩ := onResponseBuffer_frames_body (strBytes "hi")
  exact ⟨h1, h2, h3, h4, h5 (by decide)⟩

/-- C5 (counterexample): the round trip fails on the well-formed
normalized wire `"Content-Length: 1\r\n\r\n" ++ [0xFF]`: decoding it
enqueues the body `[0xFF]` byte-exactly, but re-encoding that body mangles
it through the UTF-8 round trip, so the emitted wire differs. -/
theorem onChunk_roundtrip_nonUtf8 :
    (onReceiveRequestBuffer initialState
        (strBytes "Content-Length: 1\r\n\r\n" ++ [255])).2 = none ∧
    (onReceiveRequestBuffer initialState
        (strBytes "Content-Length: 1\r\n\r\n" ++ [255])).1.requestMessageBufferQueue
      = [[255]] ∧
    onResponseBuffer [255] ≠ strBytes "Content-Length: 1\r\n\r\n" ++ [255] := by
  have hw := writeChunk_initial_small (strBytes "Content-Length: 1\r\n\r\n" ++ [255])
    22 (by decide) (by norm_num)
  have hbuf : (writeChunk initialState
      (strBytes "Content-Length: 1\r\n\r\n" ++ [255])).requestBuffer
      = strBytes "Content-Length: 1" ++ BODY_SPLIT_CHARS
          ++ ([255] ++ List.replicate 2026 0) := by
    rw [hw]
    show (strBytes "Content-Length: 1\r\n\r\n" ++ [255])
        ++ List.replicate (2048 - 22) 0 = _
    rw [show strBytes "Content-Length: 1\r\n\r\n" ++ [255]
        = (strBytes "Content-Length: 1" ++ BODY_SPLIT_CHARS) ++ [255] from by decide,
      List.append_assoc]
  have h := onChunk_extract_eq initialState
    (strBytes "Content-Length: 1\r\n\r\n" ++ [255])
    (strBytes "Content-Length: 1") ([255] ++ List.replicate 2026 0) [49] 1
    hbuf (by decide) (by decide) (by decide)
    (by rw [List.length_append, List.length_replicate]; omega)
    (by rw [hw]; decide)
  refine ⟨by rw [h], ?_, ?_⟩
  · rw [h]
    show initialState.requestMessageBufferQueue
        ++ [([255] ++ List.replicate 2026 0).take 1] = [[255]]
    rfl
  · rw [onResponseBuffer_255_eq]
    decide

end P4Analyzer

